import Mathlib

/-!
Verification of the prismtm data-lifecycle core against its specification.

This file gives a shallow embedding, in Lean 4, of the parts of the
repository that the spec's testable properties talk about:

* `src/prismtm/migrate.py` — `MigrationEngine` (`get_migration_path`,
  `migrate_file`, `migrate_project_files`);
* `src/prismtm/data/io.py` — `atomic_write` and its `_cleanup` helper;
* `src/prismtm/data/validate.py` — `_validate_schemas_backwards`,
  `find_schema_versions` / `_get_meta_version`;
* `src/prismtm/data/backup.py` — `BackupManager` (backup, restore,
  list, delete, cleanup);
* `src/prismtm/data/core.py` — `ProjectScope.save_all`.

The on-disk state is modelled as association lists from path to byte
content (file contents are opaque strings; the YAML/JSON parse layer is
treated as part of the opaque transforms).  OS-level failures that the
Python code catches (serialization errors, I/O errors) appear as
explicit outcome parameters, so that every exception path of the source
is a reachable branch of the embedding.
-/

namespace Prism

/-! ## A small file-system model: association lists from path to content -/

/-- A directory of files: an association list from file name to byte content. -/
abbrev FSys := List (String × String)

/-- Content of a file, if present (`os.path.exists` + read). -/
def FSys.get (fs : FSys) (p : String) : Option String :=
  match fs with
  | [] => none
  | (q, c) :: rest => if q = p then some c else FSys.get rest p

/-- Write (create or fully replace) a file, as an atomic content swap. -/
def FSys.set (fs : FSys) (p : String) (c : String) : FSys :=
  match fs with
  | [] => [(p, c)]
  | (q, d) :: rest => if q = p then (p, c) :: rest else (q, d) :: FSys.set rest p c

/-- Remove a file if present (`os.remove` guarded by `os.path.exists`). -/
def FSys.del (fs : FSys) (p : String) : FSys :=
  match fs with
  | [] => []
  | (q, d) :: rest => if q = p then FSys.del rest p else (q, d) :: FSys.del rest p

/-! ## `migrate.py` — the migration engine

`MigrationEngine` keeps `available_versions` (the sorted version list
produced by `_discover_versions`) and `migrations`, the dictionary of
loaded migration instances keyed by `"<from>_to_<to>"`.  A migration's
`upgrade` is modelled as a content transform that can raise
(`Except.error` carries the exception message); the YAML load of the
file, the chain of `upgrade` calls and the final dump are all folded
into these opaque transforms. -/

structure MigrationEngine where
  available_versions : List String
  migrations : List (String × (String → Except String String))

/-- The step key the engine builds for one adjacent version pair. -/
def migKey (fromVer toVer : String) : String :=
  fromVer ++ "_to_" ++ toVer

/-- `migration_key in self.migrations`. -/
def MigrationEngine.hasStep (e : MigrationEngine) (key : String) : Bool :=
  e.migrations.any (fun m => m.1 == key)

/-- The loop body of `get_migration_path`: walk consecutive pairs of the
remaining versions; append the key when a migration instance exists for
it, otherwise log a warning and skip (`migrate.py` lines 136-146). -/
def pathFrom (e : MigrationEngine) : List String → List String
  | v1 :: v2 :: rest =>
    let key := migKey v1 v2
    if e.hasStep key then key :: pathFrom e (v2 :: rest)
    else pathFrom e (v2 :: rest)
  | _ => []

/-- `MigrationEngine.get_migration_path` (`migrate.py` lines 118-147):
find `current_version` in `available_versions` (`list.index`; a
`ValueError` is caught and the empty list returned), then walk every
adjacent pair from that index to the latest version. -/
def get_migration_path (e : MigrationEngine) (current_version : String) : List String :=
  match e.available_versions.findIdx? (fun v => v == current_version) with
  | none => []
  | some i => pathFrom e (e.available_versions.drop i)

/-- The body of the migration loop in `migrate_file`: look each key up in
`self.migrations` and apply its `upgrade` to the accumulating document. -/
def apply_migrations (e : MigrationEngine) : List String → String → Except String String
  | [], d => Except.ok d
  | k :: ks, d =>
    match e.migrations.find? (fun m => m.1 == k) with
    | none => Except.error "KeyError"
    | some m =>
      match m.2 d with
      | Except.ok d2 => apply_migrations e ks d2
      | Except.error msg => Except.error msg

/-- `MigrationEngine.migrate_file` (`migrate.py` lines 149-193):
missing file logs an error and returns; empty migration path returns;
otherwise copy the file to `<path>.bak`, try loading and applying every
step followed by the final write, on any exception restore the file from
the backup copy, and in the `finally` block remove the backup copy. -/
def migrate_file (e : MigrationEngine) (fs : FSys) (file_path current_version : String) :
    FSys :=
  match fs.get file_path with
  | none => fs
  | some content =>
    let migration_path := get_migration_path e current_version
    if migration_path = [] then fs
    else
      let backup_path := file_path ++ ".bak"
      let fs1 := fs.set backup_path content
      match apply_migrations e migration_path content with
      | Except.ok newContent =>
        ((fs1.set file_path newContent).del backup_path)
      | Except.error _ =>
        let fs2 :=
          match fs1.get backup_path with
          | some saved => fs1.set file_path saved
          | none => fs1
        fs2.del backup_path

/-- `MigrationEngine.migrate_project_files` (`migrate.py` lines 195-215):
returns `False` when the `.prsm` directory is missing, otherwise calls
`migrate_file` for each of the three project files with the hard-coded
current version `v0.0.0`.  `migrate_file` catches transform failures
internally (restoring from backup) and never re-raises them, so the
`try`/`except` in this function never flips `success` for a transform
failure; in this model (where the backup copy itself cannot fail) the
result is `True` whenever the directory exists. -/
def migrate_project_files (e : MigrationEngine) (fs : FSys) (dirExists : Bool) :
    FSys × Bool :=
  if dirExists then
    (["project.yml", "bugs.yml", "tasks.yml"].foldl
      (fun acc name => migrate_file e acc name "v0.0.0") fs, true)
  else (fs, false)

/-- An engine whose catalog has three versions but whose migrations
directory only provides the first step: the `v0.0.1 → v0.0.2` step is
missing. -/
def engineMissingStep : MigrationEngine :=
  { available_versions := ["v0.0.0", "v0.0.1", "v0.0.2"]
    migrations := [("v0.0.0_to_v0.0.1", fun d => Except.ok d)] }

/-! ## `data/io.py` — `atomic_write` and `_cleanup`

Only two paths matter to `atomic_write`: the target file and the
temporary file it creates next to it.  `AWState` records both.  The
outcome of the OS-level steps (temp-file creation, serialization,
`os.replace`) is an explicit parameter, since the Python code reacts to
each of those raising. -/

/-- The error kinds `atomic_write` can surface.  `nameError` models the
`NameError` raised by the undefined variable `success` in `_cleanup`
(`io.py` line 26): `success` is referenced in the guard but never
defined in the function, so evaluating the guard raises whenever a
temp-file path was selected and exists. -/
inductive PyErr
  | fatalError
  | fileOperationError
  | nameError
deriving DecidableEq, Repr

/-- Target-file and temp-file contents before/after an `atomic_write`. -/
structure AWState where
  target : Option String
  temp : Option String
deriving DecidableEq, Repr

/-- `io._cleanup(temp_file, temp_path)` (`io.py` lines 13-32).  Selects a
temp-file path (prefer `temp_path`; else `temp_file.name` when that file
exists), then evaluates
`temp_file_path is not None and os.path.exists(temp_file_path) and not success`.
Because `success` is undefined, reaching the third conjunct raises
`NameError`; the `os.unlink` below the guard is therefore dead code and
the function returns the state unchanged when it returns at all.  The
arguments model whether the Python locals `temp_file` / `temp_path` are
set (`None` versus a value). -/
def cleanup (st : AWState) (temp_file : Option Unit) (temp_path : Option Unit) :
    Except PyErr AWState :=
  let selected : Bool :=
    match temp_path with
    | some _ => true
    | none =>
      match temp_file with
      | some _ => st.temp.isSome
      | none => false
  if selected ∧ st.temp.isSome then Except.error PyErr.nameError
  else Except.ok st

/-- Which OS-level step of `atomic_write` fails, if any. -/
inductive AWOutcome
  | tempCreateFail
  | serializeFail
  | replaceFail
  | allOk
deriving DecidableEq, Repr

/-- `io.atomic_write` (`io.py` lines 42-94), one call on the two-path
state, parametrised by which step fails:

* `tempCreateFail` — `tempfile.NamedTemporaryFile` itself raises an
  `IOError`: the locals `temp_file`/`temp_path` are still `None`; the
  handler runs `_cleanup(None, None)` (a no-op) and raises
  `FileOperationError`.
* `serializeFail` — the dump raises `yaml.YAMLError`/`TypeError`; the
  `with` block has created the temp file (`delete=False`, so it stays on
  disk, partially written) and `temp_path` is still `None`; the handler
  calls `_cleanup(temp_file, None)` before raising `FatalError`.
* `replaceFail` — `os.replace` raises an `OSError` with the fully
  serialized temp file on disk and `temp_path` set; the handler calls
  `_cleanup(temp_file, temp_path)` before raising `FileOperationError`.
* `allOk` — the temp file is atomically renamed over the target.

An exception raised by `_cleanup` inside an `except` handler propagates
out of `atomic_write` in place of the error the handler meant to
raise. -/
def atomic_write (st : AWState) (serialized : String) (oc : AWOutcome) :
    AWState × Except PyErr Bool :=
  match oc with
  | AWOutcome.tempCreateFail =>
    (match cleanup st none none with
     | Except.error e => (st, Except.error e)
     | Except.ok st2 => (st2, Except.error PyErr.fileOperationError))
  | AWOutcome.serializeFail =>
    let st1 : AWState := { st with temp := some "" }
    (match cleanup st1 (some ()) none with
     | Except.error e => (st1, Except.error e)
     | Except.ok st2 => (st2, Except.error PyErr.fatalError))
  | AWOutcome.replaceFail =>
    let st1 : AWState := { st with temp := some serialized }
    (match cleanup st1 (some ()) (some ()) with
     | Except.error e => (st1, Except.error e)
     | Except.ok st2 => (st2, Except.error PyErr.fileOperationError))
  | AWOutcome.allOk =>
    ({ target := some serialized, temp := none }, Except.ok true)

/-! ## `data/core.py` — `ProjectScope.save_all`

`save_all` (`core.py` lines 47-52) performs three `atomic_write` calls
in order when all three models are loaded.  The serialized
`model_dump()` outputs are opaque contents here; each successful
`atomic_write` is a `FSys.set`.  The third call passes `self.time`'s
dump but targets `bugs.yml`, not `time.yml`. -/

/-- The ordered (path, content) writes `ProjectScope.save_all` issues
when all three models are loaded: bug list to `bugs.yml`, task tree to
`tasktree.yml`, then the time tracker — again to `bugs.yml`. -/
def save_all_writes (tasktreeDump bugsDump timeDump : String) : List (String × String) :=
  [("bugs.yml", bugsDump), ("tasktree.yml", tasktreeDump), ("bugs.yml", timeDump)]

/-- Apply a list of successful atomic writes in order. -/
def applyWrites (fs : FSys) (ws : List (String × String)) : FSys :=
  ws.foldl (fun acc w => acc.set w.1 w.2) fs

/-- `ProjectScope.save_all` on the scope's base directory.  The three
`Option String` arguments are the loaded models' serialized dumps
(`none` models a file whose `load_model` returned `None`); when any is
`none` the guard on line 49 skips all writes. -/
def ProjectScope.save_all (fs : FSys)
    (tasktree bugs time : Option String) : FSys :=
  match tasktree, bugs, time with
  | some t, some b, some tm => applyWrites fs (save_all_writes t b tm)
  | _, _, _ => fs

/-! ## `data/validate.py` — backward version detection

`_validate_schemas_backwards` works from: whether the scope's data
directory exists, the raw directory names of the schema root
(`os.listdir(SCHEMA_ROOT_DIR)`), the names of the `*.yml` files present,
and an oracle telling whether loading the schema for a (version, file)
pair and validating the file succeeds (the `try` block of lines 205-224
treats every exception — missing schema file, bad JSON/YAML, validation
or schema errors — as "this version does not validate", so one boolean
per pair captures it). -/

structure DetectEnv where
  data_dir_exists : Bool
  schema_dir_names : List String
  yaml_files : List String
  fileValid : String → String → Bool

/-- Python's `<` on strings, spelled out: lexicographic comparison of
the code-point sequences. -/
def charListLt : List Char → List Char → Bool
  | [], [] => false
  | [], _ :: _ => true
  | _ :: _, [] => false
  | a :: as, b :: bs =>
    if a < b then true else if b < a then false else charListLt as bs

/-- Python string comparison `a < b`. -/
def strLt (a b : String) : Bool :=
  charListLt a.data b.data

/-- `sorted(os.listdir(SCHEMA_ROOT_DIR), reverse=True)` (`validate.py`
line 182): a plain descending sort of the directory-name strings under
Python's lexicographic string order (`a` comes before `b` exactly when
`not (a < b)` in a total order) — the names are not parsed as versions
and unparsable names are not discarded. -/
def sortedDescStr (l : List String) : List String :=
  List.insertionSort (fun a b => strLt a b = false) l

/-- `_validate_schemas_backwards` (`validate.py` lines 154-231): missing
data directory, empty schema catalog and no data files each return the
literal string `"0.0.0"`; otherwise the first version (in descending
lexical order) for which every present file validates is returned, and
`"0.0.0"` when none does.  No validation errors are accumulated or
returned — the function's only output is the version string. -/
def _validate_schemas_backwards (env : DetectEnv) : String :=
  if ¬ env.data_dir_exists then "0.0.0"
  else
    let schema_versions := sortedDescStr env.schema_dir_names
    if schema_versions.isEmpty then "0.0.0"
    else if env.yaml_files.isEmpty then "0.0.0"
    else
      match schema_versions.find?
          (fun v => env.yaml_files.all (fun f => env.fileValid v f)) with
      | some v => v
      | none => "0.0.0"

/-- `v[1:].split('.')` on the code-point sequence. -/
def splitDots : List Char → List (List Char)
  | [] => [[]]
  | c :: rest =>
    if c = '.' then [] :: splitDots rest
    else
      match splitDots rest with
      | [] => [[c]]
      | g :: gs => (c :: g) :: gs

/-- Python's `int` on a decimal-digit string.  `int` raising on a
non-digit component is outside the modelled domain (every input used
below is all digits). -/
def digitsToNat (cs : List Char) : Nat :=
  cs.foldl (fun acc c => acc * 10 + (c.toNat - 48)) 0

/-- Numeric components of a version directory name, as in
`[int(s) for s in v[1:].split('.')]` of `migrate.py` line 69 (the name
`v0.1.0` maps to `[0, 1, 0]`). -/
def verComponents (v : String) : List Nat :=
  (splitDots (v.data.drop 1)).map digitsToNat

/-- `name.startswith('v')` (`migrate.py` line 65). -/
def startsWithV (v : String) : Bool :=
  match v.data with
  | c :: _ => c = 'v'
  | [] => false

/-- Python's `<` on lists of ints (lexicographic on components),
used implicitly by `sorted(versions, key=...)`. -/
def natListLt : List Nat → List Nat → Bool
  | [], [] => false
  | [], _ :: _ => true
  | _ :: _, [] => false
  | a :: as, b :: bs =>
    if a < b then true else if b < a then false else natListLt as bs

/-- `MigrationEngine._discover_versions` (`migrate.py` lines 56-69):
keep only directory names starting with `v`, then sort **ascending** by
the list of numeric components (`a` comes before `b` exactly when
`not (key b < key a)`). -/
def _discover_versions (names : List String) : List String :=
  List.insertionSort
    (fun a b => natListLt (verComponents b) (verComponents a) = false)
    (names.filter startsWithV)

/-- The persisted version marker of one scope: whether `meta.json`
exists, and the value at its `"schema_version"` key when present. -/
structure ScopeMeta where
  meta_exists : Bool
  schema_version : Option String

/-- `_get_meta_version` (`validate.py` lines 144-152): `none` when the
marker file is absent; the recorded version when present
(`meta_data["schema_version"]` raises `KeyError`, modelled as
`Except.error`, if the key is missing). -/
def _get_meta_version (m : ScopeMeta) : Except Unit (Option String) :=
  if m.meta_exists then
    match m.schema_version with
    | some v => Except.ok (some v)
    | none => Except.error ()
  else Except.ok none

/-- One scope's branch of `find_schema_versions` (`validate.py` lines
135-142): use the marker version when `_get_meta_version` returned one,
and fall back to `_validate_schemas_backwards` only when it returned
`None`. -/
def find_scope_version (m : ScopeMeta) (env : DetectEnv) : Except Unit String :=
  match _get_meta_version m with
  | Except.error e => Except.error e
  | Except.ok (some v) => Except.ok v
  | Except.ok none => Except.ok (_validate_schemas_backwards env)

/-- A scope whose single data file validates against no catalog version. -/
def envNoneValid : DetectEnv :=
  { data_dir_exists := true
    schema_dir_names := ["v0.1.0"]
    yaml_files := ["bugs.yml"]
    fileValid := fun _ _ => false }

/-- An engine with one registered step whose `upgrade` raises on the
content `"bad"` and succeeds on anything else. -/
def engineOneStep : MigrationEngine :=
  { available_versions := ["v0.0.0", "v0.0.1"]
    migrations := [("v0.0.0_to_v0.0.1",
      fun d => if d = "bad" then Except.error "boom" else Except.ok (d ++ "-migrated"))] }

/-- An engine whose single registered step always raises. -/
def engineFailingStep : MigrationEngine :=
  { available_versions := ["v0.0.0", "v0.0.1"]
    migrations := [("v0.0.0_to_v0.0.1", fun _ => Except.error "step raised")] }

/-! ## `data/backup.py` — `BackupManager`

State: the files directly under the project data root `.prsm`
(`data_files`, excluding the `backups` entry), the backup folders under
`.prsm/backups` (`backups`), and any loose files placed directly under
`.prsm/backups` (`backup_root_files`, where the buggy restore copies to).
Only the metadata fields the claims touch are modelled (`backup_id`,
`created_at`); a folder whose `backups.json` is missing has
`meta = none`.  Subdirectory trees inside a backup are flattened into
its file list, and timestamps are passed in explicitly
(`datetime.now()` results). -/

structure BMeta where
  backup_id : String
  created_at : String
deriving DecidableEq, Repr

structure BackupFolder where
  name : String
  meta : Option BMeta
  files : List (String × String)
deriving DecidableEq, Repr

structure PrsmState where
  data_files : List (String × String)
  backups : List BackupFolder
  backup_root_files : List (String × String)
deriving DecidableEq, Repr

/-- `_generate_backup_id` (`backup.py` lines 16-23): timestamp, with the
sanitized custom name appended after `_` when given (the names used here
contain only alphanumerics, `-` and `_`, so sanitization is the
identity). -/
def _generate_backup_id (timestamp : String) (custom_name : Option String) : String :=
  match custom_name with
  | some n => timestamp ++ "_" ++ n
  | none => timestamp

/-- `BackupManager.backup_project` (`backup.py` lines 66-97): copy every
entry of `.prsm` except the `backups` directory into the new folder
`.prsm/backups/<backup_id>` and write a `backups.json` metadata record
(its `backup_id` and `created_at` fields are the only ones the claims
consult).  The existence guard on line 68 checks the backups root,
modelled as always present. -/
def backup_project (st : PrsmState) (timestamp now : String)
    (backup_name : Option String) : PrsmState :=
  let backup_id := _generate_backup_id timestamp backup_name
  { st with
    backups := st.backups ++
      [{ name := backup_id
         meta := some { backup_id := backup_id, created_at := now }
         files := st.data_files }] }

/-- `BackupManager.restore_project_backup` (`backup.py` lines 189-223):
`FileNotFoundError` (modelled as `Except.error ()`) when the named
backup folder is absent; otherwise first take the safety backup named
`pre_restore_<backup_id>`.  The removal loop then iterates
`PROJECT_BACKUP_DIR` — the `.prsm/backups` directory, **not** the
project data root — deleting every entry not named `"backups"` (i.e.
every backup folder, including the one being restored and the fresh
safety backup); the restore loop then iterates the now-deleted backup
folder, raising `FileNotFoundError`, and would copy entries (except
`backups.json`) to `PROJECT_BACKUP_DIR/<name>` — again under
`.prsm/backups`, never the data root. -/
def restore_project_backup (st : PrsmState) (backup_id : String)
    (create_safety_backup : Bool) (timestamp now : String) :
    PrsmState × Except Unit Bool :=
  if (st.backups.find? (fun b => b.name == backup_id)).isNone then
    (st, Except.error ())
  else
    let st1 := if create_safety_backup
      then backup_project st timestamp now (some ("pre_restore_" ++ backup_id))
      else st
    let st2 : PrsmState :=
      { st1 with
        backups := st1.backups.filter (fun b => b.name == "backups")
        backup_root_files := st1.backup_root_files.filter (fun f => f.1 == "backups") }
    match st2.backups.find? (fun b => b.name == backup_id) with
    | none => (st2, Except.error ())
    | some b =>
      let restored := (b.files.filter (fun f => !(f.1 == "backups.json"))).foldl
        (fun acc f => FSys.set acc f.1 f.2) st2.backup_root_files
      ({ st2 with backup_root_files := restored }, Except.ok true)

/-- The descending `created_at` comparison used by
`backups.sort(key=lambda x: x.get("created_at", ""), reverse=True)`
(`backup.py` lines 158 and 285): `x` comes before `y` exactly when
`not (x.created_at < y.created_at)`. -/
def bmetaDescRel (x y : BMeta) : Prop :=
  strLt x.created_at y.created_at = false

instance : DecidableRel bmetaDescRel := fun x y => by
  unfold bmetaDescRel
  infer_instance

/-- `BackupManager.list_project_backups` (`backup.py` lines 131-159):
collect the metadata of every backup folder whose `backups.json` exists,
then sort newest-first by `created_at`.  (The corrupted-metadata
fallback record of lines 144-152 is outside the modelled domain: every
present metadata record here is readable.) -/
def list_project_backups (st : PrsmState) : List BMeta :=
  List.insertionSort bmetaDescRel (st.backups.filterMap (fun b => b.meta))

/-- `BackupManager.delete_backup` (`backup.py` lines 261-273): if the
folder exists, remove its whole tree (`shutil.rmtree`) and return
`True`; otherwise return `False`. -/
def delete_backup (st : PrsmState) (backup_id : String) : PrsmState × Bool :=
  if st.backups.any (fun b => b.name == backup_id) then
    ({ st with backups := st.backups.filter (fun b => !(b.name == backup_id)) }, true)
  else (st, false)

/-- The loop body of `cleanup_old_backups` (`backup.py` lines 288-290):
delete one listed record's folder by its metadata `backup_id`,
incrementing `deleted_count` when the deletion reports `True`. -/
def cleanupStep (acc : PrsmState × Nat) (r : BMeta) : PrsmState × Nat :=
  let d := delete_backup acc.1 r.backup_id
  (d.1, if d.2 then acc.2 + 1 else acc.2)

/-- `BackupManager.cleanup_old_backups` (`backup.py` lines 275-292):
list the backups, sort them newest-first by `created_at` again, and
delete every record past the first `keep_count`, counting the
successful deletions. -/
def cleanup_old_backups (st : PrsmState) (keep_count : Nat) : PrsmState × Nat :=
  let backups := list_project_backups st
  let sorted := List.insertionSort bmetaDescRel backups
  (sorted.drop keep_count).foldl cleanupStep (st, 0)

/-- A backup folder holding the pre-mutation copy of the project file. -/
def preMutationBackup : BackupFolder :=
  { name := "b1"
    meta := some { backup_id := "b1", created_at := "2024-01-01T00:00:00" }
    files := [("tasktree.yml", "original")] }

/-- The project scope after mutating its file, with that one backup. -/
def mutatedProject : PrsmState :=
  { data_files := [("tasktree.yml", "mutated")]
    backups := [preMutationBackup]
    backup_root_files := [] }

/-- Build the on-disk folder of one backup record: folder name equals
the metadata's `backup_id` (as `backup_project` creates them). -/
def mkBackupFolder (fl : String → List (String × String)) (m : BMeta) : BackupFolder :=
  { name := m.backup_id, meta := some m, files := fl m.backup_id }

/-- Fifteen backup records, newest first, with distinct ids and
strictly descending ISO creation timestamps. -/
def metas15 : List BMeta :=
  [ { backup_id := "b15", created_at := "2024-01-15T00:00:00" },
    { backup_id := "b14", created_at := "2024-01-14T00:00:00" },
    { backup_id := "b13", created_at := "2024-01-13T00:00:00" },
    { backup_id := "b12", created_at := "2024-01-12T00:00:00" },
    { backup_id := "b11", created_at := "2024-01-11T00:00:00" },
    { backup_id := "b10", created_at := "2024-01-10T00:00:00" },
    { backup_id := "b09", created_at := "2024-01-09T00:00:00" },
    { backup_id := "b08", created_at := "2024-01-08T00:00:00" },
    { backup_id := "b07", created_at := "2024-01-07T00:00:00" },
    { backup_id := "b06", created_at := "2024-01-06T00:00:00" },
    { backup_id := "b05", created_at := "2024-01-05T00:00:00" },
    { backup_id := "b04", created_at := "2024-01-04T00:00:00" },
    { backup_id := "b03", created_at := "2024-01-03T00:00:00" },
    { backup_id := "b02", created_at := "2024-01-02T00:00:00" },
    { backup_id := "b01", created_at := "2024-01-01T00:00:00" } ]

/-! ## Theorems: source-level lemmas and the claims -/

theorem FSys.get_set_self (fs : FSys) (p c : String) : (fs.set p c).get p = some c := by
  induction fs with
  | nil => simp [FSys.set, FSys.get]
  | cons hd tl ih =>
    obtain ⟨a, b⟩ := hd
    by_cases h : a = p
    · simp [FSys.set, FSys.get, h]
    · simp [FSys.set, FSys.get, h, ih]

theorem FSys.get_set_ne (fs : FSys) (p c q : String) (h : q ≠ p) :
    (fs.set p c).get q = fs.get q := by
  have hpq : ¬ p = q := fun hh => h hh.symm
  induction fs with
  | nil => simp [FSys.set, FSys.get, hpq]
  | cons hd tl ih =>
    obtain ⟨a, b⟩ := hd
    by_cases h1 : a = p
    · subst h1
      simp [FSys.set, FSys.get, hpq]
    · simp [FSys.set, FSys.get, h1, ih]

theorem FSys.get_del_self (fs : FSys) (p : String) : (fs.del p).get p = none := by
  induction fs with
  | nil => simp [FSys.del, FSys.get]
  | cons hd tl ih =>
    obtain ⟨a, b⟩ := hd
    by_cases h : a = p
    · simp [FSys.del, h, ih]
    · simp [FSys.del, FSys.get, h, ih]

theorem FSys.get_del_ne (fs : FSys) (p q : String) (h : q ≠ p) :
    (fs.del p).get q = fs.get q := by
  have hpq : ¬ p = q := fun hh => h hh.symm
  induction fs with
  | nil => simp [FSys.del, FSys.get]
  | cons hd tl ih =>
    obtain ⟨a, b⟩ := hd
    by_cases h1 : a = p
    · subst h1
      simp [FSys.del, FSys.get, hpq, ih]
    · simp [FSys.del, FSys.get, h1, ih]

/-- C1: the spec demands that a migration-path lookup with a missing
intermediate step fail entirely (MigrationPathNotFound) rather than
return a truncated path.  The code instead logs a warning and skips the
absent step: with versions v0.0.0, v0.0.1, v0.0.2 and only the first
step registered, `get_migration_path` returns the silently truncated
one-step path `["v0.0.0_to_v0.0.1"]` (neither an error nor the required
two steps) — the behavior §9 of the spec flags as a defect of the
source. -/
theorem C1_get_migration_path_truncates :
    get_migration_path engineMissingStep "v0.0.0" = ["v0.0.0_to_v0.0.1"] ∧
      get_migration_path engineMissingStep "v0.0.0" ≠ [] ∧
      (get_migration_path engineMissingStep "v0.0.0").length ≠ 2 := by
  refine ⟨rfl, ?_, ?_⟩ <;> decide

/-- C2: the spec says that after a failed `atomic_write` the temporary
file has been removed, the target is untouched, and a distinguished
error kind is reported (serialization failure versus I/O failure).  On a
serialization failure the code instead leaves the temporary file on disk
and raises `NameError` (from the undefined `success` in `_cleanup`)
rather than the intended `FatalError`; the same happens on an I/O
failure of the final rename.  Only the target-unchanged conjunct holds. -/
theorem C2_serialize_fail_leaks_temp_and_nameError :
    atomic_write { target := some "orig", temp := none } "doc" AWOutcome.serializeFail
      = ({ target := some "orig", temp := some "" }, Except.error PyErr.nameError) ∧
    atomic_write { target := some "orig", temp := none } "doc" AWOutcome.replaceFail
      = ({ target := some "orig", temp := some "doc" }, Except.error PyErr.nameError) := by
  exact ⟨rfl, rfl⟩

/-- C10: with all three models loaded, `save_all` writes the time
tracker's dump to `bugs.yml` immediately after writing the bug list's
dump there (with only the `tasktree.yml` write in between), and never
writes `time.yml`: afterwards `bugs.yml` holds the time-tracker
document, the bug-list write has been overwritten, `tasktree.yml` holds
the task tree, and `time.yml` is exactly what it was before. -/
theorem C10_save_all_clobbers_bugs_with_time (fs : FSys) (t b tm : String) :
    save_all_writes t b tm
        = [("bugs.yml", b), ("tasktree.yml", t), ("bugs.yml", tm)] ∧
      (save_all_writes t b tm).all (fun w => w.1 ≠ "time.yml") = true ∧
      (ProjectScope.save_all fs (some t) (some b) (some tm)).get "bugs.yml" = some tm ∧
      (ProjectScope.save_all fs (some t) (some b) (some tm)).get "tasktree.yml" = some t ∧
      (ProjectScope.save_all fs (some t) (some b) (some tm)).get "time.yml"
        = fs.get "time.yml" := by
  refine ⟨rfl, rfl, ?_, ?_, ?_⟩
  · show (((fs.set "bugs.yml" b).set "tasktree.yml" t).set "bugs.yml" tm).get "bugs.yml"
      = some tm
    exact FSys.get_set_self _ _ _
  · show (((fs.set "bugs.yml" b).set "tasktree.yml" t).set "bugs.yml" tm).get "tasktree.yml"
      = some t
    rw [FSys.get_set_ne _ _ _ _ (by decide), FSys.get_set_self]
  · show (((fs.set "bugs.yml" b).set "tasktree.yml" t).set "bugs.yml" tm).get "time.yml"
      = fs.get "time.yml"
    rw [FSys.get_set_ne _ _ _ _ (by decide), FSys.get_set_ne _ _ _ _ (by decide),
      FSys.get_set_ne _ _ _ _ (by decide)]

theorem charListLt_asymm : ∀ l m, charListLt l m = true → charListLt m l = false := by
  intro l
  induction l with
  | nil =>
    intro m h
    cases m with
    | nil => simp [charListLt] at h
    | cons b bs => simp [charListLt]
  | cons a as ih =>
    intro m h
    cases m with
    | nil => simp [charListLt] at h
    | cons b bs =>
      rcases lt_trichotomy a b with hab | hab | hab
      · simp [charListLt, hab, lt_asymm hab]
      · subst hab
        simp only [charListLt, lt_irrefl, if_false] at h ⊢
        exact ih bs h
      · simp [charListLt, hab, lt_asymm hab] at h

theorem charListLt_connex :
    ∀ l m, charListLt l m = false → charListLt m l = false → l = m := by
  intro l
  induction l with
  | nil =>
    intro m h1 _
    cases m with
    | nil => rfl
    | cons b bs => simp [charListLt] at h1
  | cons a as ih =>
    intro m h1 h2
    cases m with
    | nil => simp [charListLt] at h2
    | cons b bs =>
      rcases lt_trichotomy a b with hab | hab | hab
      · simp [charListLt, hab] at h1
      · subst hab
        simp only [charListLt, lt_irrefl, if_false] at h1 h2
        simp [ih bs h1 h2]
      · simp [charListLt, hab, lt_asymm hab] at h2

theorem charListLt_trans : ∀ l m n, charListLt l m = true → charListLt m n = true →
    charListLt l n = true := by
  intro l
  induction l with
  | nil =>
    intro m n h1 h2
    cases m with
    | nil => simp [charListLt] at h1
    | cons b bs =>
      cases n with
      | nil => simp [charListLt] at h2
      | cons c cs => simp [charListLt]
  | cons a as ih =>
    intro m n h1 h2
    cases m with
    | nil => simp [charListLt] at h1
    | cons b bs =>
      cases n with
      | nil => simp [charListLt] at h2
      | cons c cs =>
        rcases lt_trichotomy a b with hab | hab | hab
        · rcases lt_trichotomy b c with hbc | hbc | hbc
          · simp [charListLt, lt_trans hab hbc, lt_asymm (lt_trans hab hbc)]
          · subst hbc
            simp [charListLt, hab, lt_asymm hab]
          · simp [charListLt, hbc, lt_asymm hbc] at h2
        · subst hab
          simp only [charListLt, lt_irrefl, if_false] at h1
          rcases lt_trichotomy a c with hac | hac | hac
          · simp [charListLt, hac, lt_asymm hac]
          · subst hac
            simp only [charListLt, lt_irrefl, if_false] at h2 ⊢
            exact ih bs cs h1 h2
          · simp [charListLt, hac, lt_asymm hac] at h2
        · simp [charListLt, hab, lt_asymm hab] at h1

theorem strLt_false_total (a b : String) : strLt a b = false ∨ strLt b a = false := by
  by_cases h : strLt a b = true
  · exact Or.inr (charListLt_asymm _ _ h)
  · exact Or.inl (Bool.eq_false_iff.mpr h)

theorem strLt_false_trans (a b c : String) (hab : strLt a b = false)
    (hbc : strLt b c = false) : strLt a c = false := by
  simp only [strLt] at hab hbc ⊢
  cases hac : charListLt a.data c.data with
  | false => rfl
  | true =>
    by_cases hba : charListLt b.data a.data = true
    · have h2 := charListLt_trans _ _ _ hba hac
      rw [hbc] at h2
      exact absurd h2 Bool.false_ne_true
    · have heq := charListLt_connex a.data b.data hab (Bool.eq_false_iff.mpr hba)
      rw [heq, hbc] at hac
      exact absurd hac Bool.false_ne_true

/-- C9: when a `meta.json` marker recording a schema version exists for
the scope, version detection returns exactly that recorded version, and
the result is independent of everything the backward scan would look at
(the scan is not performed); the backward newest-to-oldest scan is
consulted exactly when no marker is present. -/
theorem C9_marker_fast_path (v : String) (sv : Option String) (env env2 : DetectEnv) :
    find_scope_version { meta_exists := true, schema_version := some v } env
        = Except.ok v ∧
      find_scope_version { meta_exists := true, schema_version := some v } env
        = find_scope_version { meta_exists := true, schema_version := some v } env2 ∧
      find_scope_version { meta_exists := false, schema_version := sv } env
        = Except.ok (_validate_schemas_backwards env) := by
  exact ⟨rfl, rfl, rfl⟩

/-- C5 counterexample: the claim says that when no catalog version
validates all present files, detection returns the **oldest known
catalog version** together with the accumulated validation errors.  In
`envNoneValid` the only (hence oldest) catalog version is `"v0.1.0"`,
yet `_validate_schemas_backwards` returns the literal `"0.0.0"` — and it
has no error output at all. -/
theorem C5_counterexample_returns_zero_not_oldest :
    _validate_schemas_backwards envNoneValid = "0.0.0" ∧
      (sortedDescStr envNoneValid.schema_dir_names).getLast? = some "v0.1.0" ∧
      ("0.0.0" : String) ≠ "v0.1.0" := by
  exact ⟨rfl, rfl, by decide⟩

/-- C5 as amended: an empty or nonexistent data directory detects as the
zero version `0.0.0` (and the function has no error output, so no
errors are reported), and a scope in which **no** catalog version
validates all present files likewise detects as the zero version
`0.0.0` — not the oldest catalog version, and again with no accumulated
errors. -/
theorem C5_zero_version_detection :
    (∀ env : DetectEnv, env.data_dir_exists = false →
        _validate_schemas_backwards env = "0.0.0") ∧
      (∀ env : DetectEnv, env.yaml_files = [] →
        _validate_schemas_backwards env = "0.0.0") ∧
      (∀ env : DetectEnv,
        (∀ v ∈ env.schema_dir_names, ∃ f ∈ env.yaml_files, env.fileValid v f = false) →
        _validate_schemas_backwards env = "0.0.0") := by
  refine ⟨?_, ?_, ?_⟩
  · intro env h
    simp [_validate_schemas_backwards, h]
  · intro env h
    by_cases hd : env.data_dir_exists <;>
      simp [_validate_schemas_backwards, hd, h]
  · intro env h
    have hnone : (sortedDescStr env.schema_dir_names).find?
        (fun v => env.yaml_files.all (fun f => env.fileValid v f)) = none := by
      apply List.find?_eq_none.mpr
      intro v hv hall
      have hv2 : v ∈ env.schema_dir_names := by
        simpa [sortedDescStr] using hv
      obtain ⟨f, hf, hval⟩ := h v hv2
      have h2 := List.all_eq_true.mp hall f hf
      simp [hval] at h2
    by_cases hd : env.data_dir_exists <;>
      by_cases hs : (sortedDescStr env.schema_dir_names).isEmpty <;>
      by_cases hf : env.yaml_files.isEmpty <;>
      simp [_validate_schemas_backwards, hd, hs, hf, hnone]

/-- Concrete instantiation of `C5_zero_version_detection`. -/
theorem C5_zero_version_detection_witness :
    _validate_schemas_backwards
        { data_dir_exists := false, schema_dir_names := ["v0.1.0"],
          yaml_files := ["bugs.yml"], fileValid := fun _ _ => true } = "0.0.0" ∧
      _validate_schemas_backwards envNoneValid = "0.0.0" := by
  refine ⟨C5_zero_version_detection.1 _ rfl, C5_zero_version_detection.2.2 envNoneValid ?_⟩
  intro v hv
  exact ⟨"bugs.yml", by simp [envNoneValid], rfl⟩

/-- C6 counterexample: the claim says versions are listed in descending
order under numeric component-wise comparison, so that detection probes
newest-to-oldest numerically.  `_validate_schemas_backwards` sorts the
raw directory names lexically: for names `v0.10.0` and `v0.2.0` the
"descending" list starts with `v0.2.0`, whose numeric components
`[0, 2, 0]` are strictly less than `v0.10.0`'s `[0, 10, 0]` — so
detection probes an older version first, and nothing was parsed or
discarded. -/
theorem C6_counterexample_lexical_order :
    sortedDescStr ["v0.10.0", "v0.2.0"] = ["v0.2.0", "v0.10.0"] ∧
      natListLt (verComponents "v0.2.0") (verComponents "v0.10.0") = true := by
  refine ⟨by decide, by decide⟩

/-- C6 as amended: version detection sorts the schema-root directory
names in descending **lexical string** order, without parsing them as
versions and without discarding unparsable names (the result is a
permutation of the raw listing, sorted under the string order); this
coincides with numeric newest-first order only when the two orders
agree.  Migration discovery (`_discover_versions`) separately keeps the
names starting with `v` and sorts them **ascending** by numeric
components. -/
theorem C6_sorting_behavior :
    (∀ l : List String,
        (sortedDescStr l).Sorted (fun a b => strLt a b = false) ∧
          (sortedDescStr l).Perm l) ∧
      _discover_versions ["migrations", "v0.2.0", "v0.10.0"]
        = ["v0.2.0", "v0.10.0"] := by
  haveI : IsTotal String (fun a b => strLt a b = false) := ⟨strLt_false_total⟩
  haveI : IsTrans String (fun a b => strLt a b = false) := ⟨strLt_false_trans⟩
  refine ⟨fun l => ⟨List.sorted_insertionSort _ l, List.perm_insertionSort _ l⟩, by decide⟩

/-! ## C3 / C4 — per-file rollback and the scope-level success flag -/

theorem migrate_file_frame (e : MigrationEngine) (fs : FSys) (fp cv q : String)
    (h1 : q ≠ fp) (h2 : q ≠ fp ++ ".bak") :
    (migrate_file e fs fp cv).get q = fs.get q := by
  cases hc : fs.get fp with
  | none => simp [migrate_file, hc]
  | some content =>
    by_cases hp : get_migration_path e cv = []
    · simp [migrate_file, hc, hp]
    · cases ha : apply_migrations e (get_migration_path e cv) content with
      | ok nc =>
        simp [migrate_file, hc, hp, ha, FSys.get_del_ne, FSys.get_set_ne, h1, h2]
      | error m =>
        simp [migrate_file, hc, hp, ha, FSys.get_set_self, FSys.get_del_ne,
          FSys.get_set_ne, h1, h2]

theorem migrate_file_ok (e : MigrationEngine) (fs : FSys) (fp cv content nc : String)
    (hc : fs.get fp = some content)
    (hp : get_migration_path e cv ≠ [])
    (ha : apply_migrations e (get_migration_path e cv) content = Except.ok nc) :
    migrate_file e fs fp cv
      = ((fs.set (fp ++ ".bak") content).set fp nc).del (fp ++ ".bak") := by
  simp [migrate_file, hc, hp, ha]

theorem migrate_file_err (e : MigrationEngine) (fs : FSys) (fp cv content m : String)
    (hc : fs.get fp = some content)
    (hp : get_migration_path e cv ≠ [])
    (ha : apply_migrations e (get_migration_path e cv) content = Except.error m) :
    migrate_file e fs fp cv
      = ((fs.set (fp ++ ".bak") content).set fp content).del (fp ++ ".bak") := by
  simp [migrate_file, hc, hp, ha, FSys.get_set_self]

/-- C3: in a project-scope migration over `project.yml`, `bugs.yml`,
`tasks.yml` where the step chain succeeds on `project.yml`'s content but
raises on `bugs.yml`'s, afterwards `bugs.yml` holds exactly its
pre-migration content (restored from the `.bak` copy made before
mutation), the earlier `project.yml` keeps its migrated content, and
neither file's `.bak` backup copy remains on disk. -/
theorem C3_failing_file_restored_earlier_kept
    (e : MigrationEngine) (cp cb ct cp' m : String)
    (hp : get_migration_path e "v0.0.0" ≠ [])
    (hok : apply_migrations e (get_migration_path e "v0.0.0") cp = Except.ok cp')
    (herr : apply_migrations e (get_migration_path e "v0.0.0") cb = Except.error m) :
    (migrate_project_files e
        [("project.yml", cp), ("bugs.yml", cb), ("tasks.yml", ct)] true).1.get "project.yml"
        = some cp' ∧
      (migrate_project_files e
        [("project.yml", cp), ("bugs.yml", cb), ("tasks.yml", ct)] true).1.get "bugs.yml"
        = some cb ∧
      (migrate_project_files e
        [("project.yml", cp), ("bugs.yml", cb), ("tasks.yml", ct)] true).1.get "project.yml.bak"
        = none ∧
      (migrate_project_files e
        [("project.yml", cp), ("bugs.yml", cb), ("tasks.yml", ct)] true).1.get "bugs.yml.bak"
        = none := by
  have hstep1 := migrate_file_ok e
    [("project.yml", cp), ("bugs.yml", cb), ("tasks.yml", ct)] "project.yml" "v0.0.0"
    cp cp' (by simp [FSys.get]) hp hok
  have hget2 : (migrate_file e [("project.yml", cp), ("bugs.yml", cb), ("tasks.yml", ct)]
      "project.yml" "v0.0.0").get "bugs.yml" = some cb := by
    rw [hstep1]
    simp [FSys.get_del_ne, FSys.get_set_ne, FSys.get]
  have hstep2 := migrate_file_err e
    (migrate_file e [("project.yml", cp), ("bugs.yml", cb), ("tasks.yml", ct)]
      "project.yml" "v0.0.0") "bugs.yml" "v0.0.0" cb m hget2 hp herr
  have hexp : migrate_project_files e
      [("project.yml", cp), ("bugs.yml", cb), ("tasks.yml", ct)] true
      = (migrate_file e (migrate_file e (migrate_file e
          [("project.yml", cp), ("bugs.yml", cb), ("tasks.yml", ct)]
          "project.yml" "v0.0.0") "bugs.yml" "v0.0.0") "tasks.yml" "v0.0.0", true) := rfl
  refine ⟨?_, ?_, ?_, ?_⟩
  · rw [hexp, migrate_file_frame e _ "tasks.yml" "v0.0.0" "project.yml"
      (by decide) (by decide), hstep2, hstep1]
    simp [FSys.get_del_ne, FSys.get_set_ne, FSys.get_del_self, FSys.get_set_self]
  · rw [hexp, migrate_file_frame e _ "tasks.yml" "v0.0.0" "bugs.yml"
      (by decide) (by decide), hstep2, hstep1]
    simp [FSys.get_del_ne, FSys.get_set_ne, FSys.get_del_self, FSys.get_set_self]
  · rw [hexp, migrate_file_frame e _ "tasks.yml" "v0.0.0" "project.yml.bak"
      (by decide) (by decide), hstep2, hstep1]
    simp [FSys.get_del_ne, FSys.get_set_ne, FSys.get_del_self, FSys.get_set_self]
  · rw [hexp, migrate_file_frame e _ "tasks.yml" "v0.0.0" "bugs.yml.bak"
      (by decide) (by decide), hstep2, hstep1]
    simp [FSys.get_del_ne, FSys.get_set_ne, FSys.get_del_self, FSys.get_set_self]

/-- Concrete instantiation of `C3_failing_file_restored_earlier_kept`. -/
theorem C3_failing_file_restored_earlier_kept_witness :
    (migrate_project_files engineOneStep
        [("project.yml", "good"), ("bugs.yml", "bad"), ("tasks.yml", "t0")] true).1.get
        "project.yml" = some "good-migrated" ∧
      (migrate_project_files engineOneStep
        [("project.yml", "good"), ("bugs.yml", "bad"), ("tasks.yml", "t0")] true).1.get
        "bugs.yml" = some "bad" ∧
      (migrate_project_files engineOneStep
        [("project.yml", "good"), ("bugs.yml", "bad"), ("tasks.yml", "t0")] true).1.get
        "project.yml.bak" = none ∧
      (migrate_project_files engineOneStep
        [("project.yml", "good"), ("bugs.yml", "bad"), ("tasks.yml", "t0")] true).1.get
        "bugs.yml.bak" = none :=
  C3_failing_file_restored_earlier_kept engineOneStep "good" "bad" "t0" "good-migrated"
    "boom" (by decide) (by rfl) (by rfl)

/-- C4 counterexample: the claim says any per-file transform failure —
even one recovered via restore-from-backup — makes the overall call
report non-success.  With an engine whose only step raises on every
file, every file's migration fails and is rolled back (e.g.
`project.yml` still holds its original content), yet
`migrate_project_files` returns `True`: `migrate_file` caught the
exceptions internally, so the caller's `except` never fires. -/
theorem C4_counterexample_success_despite_failures :
    (migrate_project_files engineFailingStep
        [("project.yml", "p0"), ("bugs.yml", "b0"), ("tasks.yml", "t0")] true).2 = true ∧
      (migrate_project_files engineFailingStep
        [("project.yml", "p0"), ("bugs.yml", "b0"), ("tasks.yml", "t0")] true).1.get
        "project.yml" = some "p0" := by
  exact ⟨rfl, rfl⟩

/-- C4 as amended: per-file transform failures are swallowed inside
`migrate_file` (which restores from backup and does not re-raise), so
the overall call reports success whenever the scope directory exists,
regardless of how many files actually completed; it reports non-success
exactly when the scope directory is missing (or, outside this pure
model, when `migrate_file` itself raises — e.g. creating the `.bak`
copy fails). -/
theorem C4_success_flag_is_dir_existence (e : MigrationEngine) (fs : FSys) :
    (migrate_project_files e fs true).2 = true ∧
      migrate_project_files e fs false = (fs, false) := by
  exact ⟨rfl, rfl⟩

/-- C7: the claim says restoring the snapshot restores every file of the
scope's data root to byte-identical pre-mutation content, after first
producing a `pre_restore` safety snapshot.  The code takes the safety
snapshot but then deletes every folder under `.prsm/backups` — including
the backup being restored and the safety snapshot itself — and raises
`FileNotFoundError` when it iterates the now-deleted backup folder: the
data root still holds the mutated content and no backup survives. -/
theorem C7_restore_destroys_backups_restores_nothing :
    restore_project_backup mutatedProject "b1" true "20240102_000000"
        "2024-01-02T00:00:00"
      = ({ data_files := [("tasktree.yml", "mutated")], backups := [],
           backup_root_files := [] },
         Except.error ()) := by
  rfl

theorem filterMap_meta_map (ms : List BMeta) (fl : String → List (String × String)) :
    (ms.map (mkBackupFolder fl)).filterMap (fun b => b.meta) = ms := by
  induction ms with
  | nil => rfl
  | cons m rest ih => simp [mkBackupFolder, ih]

theorem fold_delete (rs : List BMeta) :
    ∀ (bs : List BackupFolder) (df brf : List (String × String)) (n : Nat),
      (rs.map (fun r => r.backup_id)).Nodup →
      (∀ r ∈ rs, ∃ b ∈ bs, b.name = r.backup_id) →
      rs.foldl cleanupStep
          ({ data_files := df, backups := bs, backup_root_files := brf }, n)
        = ({ data_files := df,
             backups := bs.filter
               (fun b => decide (b.name ∉ rs.map (fun r => r.backup_id))),
             backup_root_files := brf }, n + rs.length) := by
  induction rs with
  | nil =>
    intro bs df brf n _ _
    simp
  | cons r rest ih =>
    intro bs df brf n hnd hmem
    have hany : bs.any (fun b => b.name == r.backup_id) = true := by
      obtain ⟨b, hb, hname⟩ := hmem r (by simp)
      exact List.any_eq_true.mpr ⟨b, hb, by simp [hname]⟩
    have hstep : cleanupStep
        ({ data_files := df, backups := bs, backup_root_files := brf }, n) r
        = ({ data_files := df,
             backups := bs.filter (fun b => !(b.name == r.backup_id)),
             backup_root_files := brf }, n + 1) := by
      simp [cleanupStep, delete_backup, hany]
    have hmem2 : ∀ r2 ∈ rest, ∃ b ∈ bs.filter (fun b => !(b.name == r.backup_id)),
        b.name = r2.backup_id := by
      intro r2 hr2
      obtain ⟨b, hb, hname⟩ := hmem r2 (by simp [hr2])
      refine ⟨b, List.mem_filter.mpr ⟨hb, ?_⟩, hname⟩
      have hne : r2.backup_id ≠ r.backup_id := by
        intro hEq
        apply (List.nodup_cons.mp hnd).1
        show r.backup_id ∈ rest.map (fun r2 => r2.backup_id)
        rw [← hEq]
        exact List.mem_map_of_mem _ hr2
      simp [hname, hne]
    rw [List.foldl_cons, hstep, ih _ df brf (n + 1) (List.nodup_cons.mp hnd).2 hmem2]
    have hfilters : (bs.filter (fun b => !(b.name == r.backup_id))).filter
        (fun b => decide (b.name ∉ rest.map (fun r2 => r2.backup_id)))
        = bs.filter
            (fun b => decide (b.name ∉ (r :: rest).map (fun r2 => r2.backup_id))) := by
      rw [List.filter_filter]
      apply List.filter_congr
      intro b _
      by_cases h1 : b.name = r.backup_id <;>
        by_cases h2 : b.name ∈ rest.map (fun r2 => r2.backup_id) <;>
        simp [h1, h2]
    rw [hfilters]
    congr 1
    simp only [List.length_cons]
    omega

/-- C8: for a store of 15 backups (distinct ids, metadata present,
strictly descending `created_at`, folder names matching their metadata
ids), `cleanup_old_backups` with `keep_count = 10` removes exactly the 5
oldest backup folders — each removed as a whole (`shutil.rmtree` of the
folder tree, modelled as removing the folder from the store) — leaving
exactly the 10 newest intact and returning the count 5 of removed
records.  The data root and any loose files are untouched. -/
theorem C8_cleanup_keeps_ten_newest
    (ms : List BMeta) (fl : String → List (String × String))
    (df brf : List (String × String))
    (hlen : ms.length = 15)
    (hnd : (ms.map (fun m => m.backup_id)).Nodup)
    (hsort : ms.Pairwise (fun x y => strLt y.created_at x.created_at = true)) :
    cleanup_old_backups
        { data_files := df, backups := ms.map (mkBackupFolder fl),
          backup_root_files := brf } 10
      = ({ data_files := df, backups := (ms.take 10).map (mkBackupFolder fl),
           backup_root_files := brf }, 5) := by
  have hsorted : List.Sorted bmetaDescRel ms :=
    hsort.imp (fun h => charListLt_asymm _ _ h)
  have hlist : list_project_backups
      { data_files := df, backups := ms.map (mkBackupFolder fl),
        backup_root_files := brf } = ms := by
    show List.insertionSort bmetaDescRel
      ((ms.map (mkBackupFolder fl)).filterMap (fun b => b.meta)) = ms
    rw [filterMap_meta_map]
    exact hsorted.insertionSort_eq
  have hnd2 : ((ms.drop 10).map (fun r => r.backup_id)).Nodup := by
    rw [List.map_drop]
    exact List.Nodup.sublist (List.drop_sublist 10 _) hnd
  have hmem2 : ∀ r ∈ ms.drop 10, ∃ b ∈ ms.map (mkBackupFolder fl),
      b.name = r.backup_id := by
    intro r hr
    exact ⟨mkBackupFolder fl r,
      List.mem_map_of_mem _ (List.mem_of_mem_drop hr), rfl⟩
  have hdisj : ∀ x ∈ ms.take 10,
      x.backup_id ∉ (ms.drop 10).map (fun r => r.backup_id) := by
    have hsplit : ms.map (fun m => m.backup_id)
        = (ms.take 10).map (fun m => m.backup_id)
          ++ (ms.drop 10).map (fun m => m.backup_id) := by
      rw [← List.map_append, List.take_append_drop]
    rw [hsplit] at hnd
    intro x hx
    exact (List.nodup_append.mp hnd).2.2 (List.mem_map_of_mem _ hx)
  have hfilter : ms.filter
      (fun m => decide (m.backup_id ∉ (ms.drop 10).map (fun r => r.backup_id)))
      = ms.take 10 := by
    have key : ∀ ids : List String,
        (∀ x ∈ ms.take 10, x.backup_id ∉ ids) →
        (∀ x ∈ ms.drop 10, x.backup_id ∈ ids) →
        ms.filter (fun m => decide (m.backup_id ∉ ids)) = ms.take 10 := by
      intro ids h1 h2
      conv_lhs => rw [← List.take_append_drop 10 ms]
      rw [List.filter_append,
        List.filter_eq_self.mpr (fun a ha => by simpa using h1 a ha),
        List.filter_eq_nil_iff.mpr (fun a ha => by simpa using h2 a ha),
        List.append_nil]
    exact key _ hdisj (fun x hx => List.mem_map_of_mem _ hx)
  simp only [cleanup_old_backups]
  rw [hlist, hsorted.insertionSort_eq,
    fold_delete (ms.drop 10) (ms.map (mkBackupFolder fl)) df brf 0 hnd2 hmem2,
    List.filter_map, List.length_drop, hlen]
  congr 1
  have hcomp : ((fun b => decide
      (BackupFolder.name b ∉ (ms.drop 10).map (fun r => r.backup_id)))
        ∘ mkBackupFolder fl)
      = fun m => decide (m.backup_id ∉ (ms.drop 10).map (fun r => r.backup_id)) := by
    funext m
    rfl
  rw [hcomp, hfilter]

/-- Concrete instantiation of `C8_cleanup_keeps_ten_newest`. -/
theorem C8_cleanup_keeps_ten_newest_witness :
    cleanup_old_backups
        { data_files := [("tasktree.yml", "data")],
          backups := metas15.map (mkBackupFolder (fun _ => [])),
          backup_root_files := [] } 10
      = ({ data_files := [("tasktree.yml", "data")],
           backups := (metas15.take 10).map (mkBackupFolder (fun _ => [])),
           backup_root_files := [] }, 5) :=
  C8_cleanup_keeps_ten_newest metas15 (fun _ => []) _ _ rfl (by decide) (by decide)

end Prism

